import Mathlib

/-!
Verification of the AlphaGraph financial news analysis service
(`backend/server.py`) against its behavioral specification.

The development shallowly embeds the Python code: text is `List Char`
(with `String` at the interface), Python floats are modelled as `ℚ`,
`datetime` values as `ℚ` seconds, fallible paths as `Option`/`Except`,
and the external collaborators (LLM provider, MongoDB) as explicit
`Except`-valued inputs whose success values are processed exactly as the
handlers process them.
-/

namespace AlphaGraph

/-! ### Python text primitives

`pyStrip`, `pySplit` and friends model Python's `str.strip()`,
`str.split(sep)` and `str.startswith` on `List Char`.
-/

/-- Whitespace recognizer used by `str.strip()` and by the JSON lexer
(space, tab, newline, carriage return). -/
def isWs (c : Char) : Bool :=
  c = ' ' || c = '\t' || c = '\n' || c = '\r'

/-- Python `str.strip()`: drop whitespace from both ends. -/
def pyStrip (l : List Char) : List Char :=
  ((l.dropWhile isWs).reverse.dropWhile isWs).reverse

/-- Locate the leftmost occurrence of `sep`: returns the part before it and
the part after it, or `none` when `sep` does not occur. -/
def findSplit (sep : List Char) : List Char → Option (List Char × List Char)
  | [] => if sep.isEmpty then some ([], []) else none
  | c :: t =>
    if sep.isPrefixOf (c :: t) then some ([], (c :: t).drop sep.length)
    else
      match findSplit sep t with
      | some (pre, post) => some (c :: pre, post)
      | none => none

/-- Fuel-driven worker for `pySplit`. -/
def pySplitGo (sep : List Char) : Nat → List Char → List (List Char)
  | 0, l => [l]
  | fuel + 1, l =>
    match findSplit sep l with
    | none => [l]
    | some (pre, post) => pre :: pySplitGo sep fuel post

/-- Python `str.split(sep)` for a non-empty separator: split on each
non-overlapping leftmost occurrence, keeping empty pieces. -/
def pySplit (sep l : List Char) : List (List Char) :=
  pySplitGo sep (l.length + 1) l

/-- The backtick character, `Char.ofNat 96`. -/
def btick : Char := Char.ofNat 96

/-- Characters of the untagged fence marker. -/
def fence : List Char := [btick, btick, btick]

/-- Characters of the JSON-tagged fence marker. -/
def fenceTag : List Char := fence ++ ['j', 's', 'o', 'n']

/-! ### JSON values and the parser embedding `json.loads` -/

/-- JSON values; numbers are exact rationals. -/
inductive Json where
  | null : Json
  | bool : Bool → Json
  | num : ℚ → Json
  | str : String → Json
  | arr : List Json → Json
  | obj : List (String × Json) → Json

/-- Skip JSON whitespace. -/
def skipWs (l : List Char) : List Char := l.dropWhile isWs

/-- Hexadecimal digit value, if any. -/
def hexVal? (c : Char) : Option Nat :=
  if c.isDigit then some (c.toNat - 48)
  else if 97 ≤ c.toNat ∧ c.toNat ≤ 102 then some (c.toNat - 87)
  else if 65 ≤ c.toNat ∧ c.toNat ≤ 70 then some (c.toNat - 55)
  else none

/-- Single-character JSON string escapes. -/
def escChar? (c : Char) : Option Char :=
  if c = '"' then some '"'
  else if c = '\\' then some '\\'
  else if c = '/' then some '/'
  else if c = 'b' then some (Char.ofNat 8)
  else if c = 'f' then some (Char.ofNat 12)
  else if c = 'n' then some '\n'
  else if c = 'r' then some '\r'
  else if c = 't' then some '\t'
  else none

/-- Parse the body of a JSON string (the opening quote already consumed),
returning the decoded characters and the remaining input.  Unescaped
control characters are rejected, as `json.loads` rejects them. -/
def parseStrChars : List Char → Option (List Char × List Char)
  | [] => none
  | c :: rest =>
    if c = '"' then some ([], rest)
    else if c = '\\' then
      match rest with
      | [] => none
      | e :: rest2 =>
        if e = 'u' then
          match rest2 with
          | h1 :: h2 :: h3 :: h4 :: rest3 =>
            match hexVal? h1, hexVal? h2, hexVal? h3, hexVal? h4 with
            | some a, some b, some c2, some d =>
              match parseStrChars rest3 with
              | some (cs, rem) =>
                some (Char.ofNat (((a * 16 + b) * 16 + c2) * 16 + d) :: cs, rem)
              | none => none
            | _, _, _, _ => none
          | _ => none
        else
          match escChar? e with
          | some ec =>
            match parseStrChars rest2 with
            | some (cs, rem) => some (ec :: cs, rem)
            | none => none
          | none => none
    else if c.toNat < 32 then none
    else
      match parseStrChars rest with
      | some (cs, rem) => some (c :: cs, rem)
      | none => none

/-- Numeric value of a digit string. -/
def digitsVal (ds : List Char) : Nat :=
  ds.foldl (fun a c => a * 10 + (c.toNat - 48)) 0

/-- Parse an optional fraction part `.digits`, as a rational in `[0,1)`. -/
def parseFrac (l : List Char) : Option (ℚ × List Char) :=
  match l with
  | c :: t =>
    if c = '.' then
      let ds := t.takeWhile Char.isDigit
      if ds.isEmpty then none
      else some ((digitsVal ds : ℚ) / (10 : ℚ) ^ ds.length, t.dropWhile Char.isDigit)
    else some (0, l)
  | [] => some (0, [])

/-- Parse an optional exponent part, as the scale factor it denotes. -/
def parseExp (l : List Char) : Option (ℚ × List Char) :=
  match l with
  | c :: t =>
    if c = 'e' ∨ c = 'E' then
      let p : Int × List Char :=
        match t with
        | d :: t2 => if d = '+' then (1, t2) else if d = '-' then (-1, t2) else (1, t)
        | [] => (1, [])
      let ds := p.2.takeWhile Char.isDigit
      if ds.isEmpty then none
      else some ((10 : ℚ) ^ (p.1 * (digitsVal ds : Int)), p.2.dropWhile Char.isDigit)
    else some (1, l)
  | [] => some (1, [])

/-- Parse a JSON number (RFC 8259 grammar: optional minus, integer part
without leading zeros, optional fraction, optional exponent). -/
def parseNumber (l : List Char) : Option (ℚ × List Char) :=
  match l with
  | [] => none
  | c0 :: t0 =>
    let p0 : ℚ × List Char := if c0 = '-' then (-1, t0) else (1, l)
    match p0.2 with
    | [] => none
    | c :: t =>
      if c.isDigit then
        let ipr : Nat × List Char :=
          if c = '0' then (0, t)
          else (digitsVal ((c :: t).takeWhile Char.isDigit),
                (c :: t).dropWhile Char.isDigit)
        match parseFrac ipr.2 with
        | none => none
        | some (fr, r2) =>
          match parseExp r2 with
          | none => none
          | some (ex, r3) => some (p0.1 * ((ipr.1 : ℚ) + fr) * ex, r3)
      else none

/-- Replace or insert a key parsed again later in the same object: Python
dicts keep the first position of a duplicated key and its last value. -/
def dedupKey (k : String) (v : Json) (kvs : List (String × Json)) :
    List (String × Json) :=
  match kvs.find? (fun p => p.1 == k) with
  | some p => (k, p.2) :: kvs.filter (fun q => q.1 != k)
  | none => (k, v) :: kvs

mutual

/-- Parse one JSON value (leading whitespace already skipped). -/
def parseVal : Nat → List Char → Option (Json × List Char)
  | 0, _ => none
  | fuel + 1, l =>
    match l with
    | 'n' :: 'u' :: 'l' :: 'l' :: rest => some (.null, rest)
    | 't' :: 'r' :: 'u' :: 'e' :: rest => some (.bool true, rest)
    | 'f' :: 'a' :: 'l' :: 's' :: 'e' :: rest => some (.bool false, rest)
    | '"' :: rest =>
      match parseStrChars rest with
      | some (cs, rem) => some (.str (String.mk cs), rem)
      | none => none
    | '[' :: rest =>
      match skipWs rest with
      | ']' :: rem => some (.arr [], rem)
      | r1 =>
        match parseItems fuel r1 with
        | some (vs, rem) => some (.arr vs, rem)
        | none => none
    | '{' :: rest =>
      match skipWs rest with
      | '}' :: rem => some (.obj [], rem)
      | r1 =>
        match parseMembers fuel r1 with
        | some (kvs, rem) => some (.obj kvs, rem)
        | none => none
    | _ =>
      match parseNumber l with
      | some (q, rem) => some (.num q, rem)
      | none => none

/-- Parse the comma-separated elements of a non-empty array. -/
def parseItems : Nat → List Char → Option (List Json × List Char)
  | 0, _ => none
  | fuel + 1, l =>
    match parseVal fuel l with
    | none => none
    | some (v, r) =>
      match skipWs r with
      | ',' :: r2 =>
        match parseItems fuel (skipWs r2) with
        | some (vs, rem) => some (v :: vs, rem)
        | none => none
      | ']' :: r2 => some ([v], r2)
      | _ => none

/-- Parse the comma-separated members of a non-empty object. -/
def parseMembers : Nat → List Char → Option (List (String × Json) × List Char)
  | 0, _ => none
  | fuel + 1, l =>
    match l with
    | '"' :: rest =>
      match parseStrChars rest with
      | none => none
      | some (kcs, r1) =>
        match skipWs r1 with
        | ':' :: r2 =>
          match parseVal fuel (skipWs r2) with
          | none => none
          | some (v, r3) =>
            match skipWs r3 with
            | ',' :: r4 =>
              match parseMembers fuel (skipWs r4) with
              | some (kvs, rem) => some (dedupKey (String.mk kcs) v kvs, rem)
              | none => none
            | '}' :: r4 => some ([(String.mk kcs, v)], r4)
            | _ => none
        | _ => none
    | _ => none

end

/-- Embedding of `json.loads`: parse a complete JSON document, allowing
surrounding whitespace and rejecting trailing garbage.  (The non-standard
`NaN`/`Infinity` extensions of Python's parser are not modelled.) -/
def parseJsonL (l : List Char) : Option Json :=
  match parseVal (2 * l.length + 8) (skipWs l) with
  | some (v, rest) => if (skipWs rest).isEmpty then some v else none
  | none => none

/-! ### The analysis-result Normalizer
(`FinancialAnalysisService.analyze_news`, lines 163-189)
-/

/-- Fence-stripping step of `analyze_news`: when the stripped response
starts with the tagged marker, take the piece after the first tagged
marker and before the next plain marker; when it starts with the untagged
marker, take the piece between the first two markers; otherwise leave the
text unchanged. -/
def stripFences (l : List Char) : List Char :=
  if fenceTag.isPrefixOf l then
    ((pySplit fence ((pySplit fenceTag l).getD 1 []))).getD 0 []
  else if fence.isPrefixOf l then (pySplit fence l).getD 1 []
  else l

/-- Required keys checked by `analyze_news` (`required_fields`). -/
def required_fields : List String :=
  ["sentiment_score", "sentiment_label", "impact_score",
   "mentioned_companies", "key_points"]

/-- Per-key defaults (`FinancialAnalysisService._get_default_value`);
unknown keys give `defaults.get(field, None)`, i.e. Python `None`. -/
def get_default_value (f : String) : Json :=
  if f = "sentiment_score" then .num 0
  else if f = "sentiment_label" then .str "NEUTRAL"
  else if f = "impact_score" then .num 5
  else if f = "mentioned_companies" then .arr []
  else if f = "key_points" then .arr []
  else .null

/-- Fixed fallback object (`FinancialAnalysisService._get_default_analysis`). -/
def get_default_analysis : List (String × Json) :=
  [("sentiment_score", .num 0),
   ("sentiment_label", .str "NEUTRAL"),
   ("impact_score", .num 5),
   ("mentioned_companies", .arr []),
   ("key_points", .arr [.str "Analysis temporarily unavailable"]),
   ("reasoning", .str "AI analysis service temporarily unavailable")]

/-- Python `key in dict`. -/
def hasKey (kvs : List (String × Json)) (k : String) : Bool :=
  kvs.any (fun p => p.1 == k)

/-- Python `dict[key]` as an `Option`. -/
def dictLookup (kvs : List (String × Json)) (k : String) : Option Json :=
  (kvs.find? (fun p => p.1 == k)).map (fun p => p.2)

/-- Python `dict.get(key, default)`. -/
def dictGet (kvs : List (String × Json)) (k : String) (d : Json) : Json :=
  (dictLookup kvs k).getD d

/-- Required-field loop of `analyze_news`: each required field missing from
the parsed object is appended with its default. -/
def fillDefaults (kvs : List (String × Json)) : List (String × Json) :=
  required_fields.foldl
    (fun acc f => if hasKey acc f then acc else acc ++ [(f, get_default_value f)])
    kvs

/-- Response-normalization core of `analyze_news`: strip whitespace and
fences, parse as JSON, fill missing required fields; on a parse failure
(`json.JSONDecodeError`) or on a JSON value that is not an object (where
the Python field loop raises `TypeError`, caught by the outer handler)
produce the fixed fallback object. -/
def normalizeResponse (t : List Char) : List (String × Json) :=
  let response_text := stripFences (pyStrip t)
  match parseJsonL response_text with
  | some (.obj kvs) => fillDefaults kvs
  | _ => get_default_analysis

/-- An HTTP error response (FastAPI `HTTPException`). -/
structure HttpError where
  status : Nat
  detail : String
deriving DecidableEq

/-- `FinancialAnalysisService.analyze_news`: raise a 500 configuration
error when no credential is configured, before the provider is contacted;
otherwise every provider failure (`aiOutcome = .error`) and every provider
response text is absorbed into a result dictionary. -/
def analyze_news (api_key : String) (aiOutcome : Except String String) :
    Except HttpError (List (String × Json)) :=
  if api_key = "" then .error ⟨500, "Gemini API key not configured"⟩
  else
    match aiOutcome with
    | .error _ => .ok get_default_analysis
    | .ok response => .ok (normalizeResponse response.data)

/-! ### Data model and the analyze endpoint -/

/-- Validated request body of POST `/analyze` (`AnalysisRequest`). -/
structure AnalysisRequest where
  headline : String
  content : String
  source : String
  url : Option String
deriving DecidableEq

/-- Raw request body before pydantic validation: each field present or
absent.  (`source` defaults to "manual", `url` to `None`.) -/
structure RawAnalysisRequest where
  headline : Option String
  content : Option String
  source : Option String
  url : Option String
deriving DecidableEq

/-- Pydantic validation of `AnalysisRequest`: `headline` and `content` are
required; no further constraint is declared on their values. -/
def validate_analysis_request (r : RawAnalysisRequest) :
    Except (List String) AnalysisRequest :=
  match r.headline, r.content with
  | some h, some c => .ok ⟨h, c, r.source.getD "manual", r.url⟩
  | none, some _ => .error ["headline: field required"]
  | some _, none => .error ["content: field required"]
  | none, none => .error ["headline: field required", "content: field required"]

/-- One `NewsAnalysis` record.  `datetime` fields are rationals (seconds);
`float` fields are rationals. -/
structure NewsAnalysis where
  id : String
  headline : String
  content : String
  source : String
  url : Option String
  published_date : ℚ
  mentioned_companies : List String
  sentiment_score : ℚ
  sentiment_label : String
  impact_score : ℚ
  key_points : List String
  analysis_timestamp : ℚ
deriving DecidableEq

/-- Pydantic v1 `str` field coercion: strings pass, numbers and booleans
are stringified, everything else fails.  (The exact text of a stringified
number differs from Python's float formatting; no property below depends
on it.) -/
def coerceStr : Json → Option String
  | .str s => some s
  | .num q => some (toString q)
  | .bool b => some (if b then "True" else "False")
  | _ => none

/-- Numeric string accepted by Python `float()`: optional surrounding
whitespace, optional sign, decimal digits with an optional single point.
(Exponent, `inf` and `nan` forms are not modelled.) -/
def floatLit? (s : String) : Option ℚ :=
  let cs := pyStrip s.data
  let p : ℚ × List Char :=
    match cs with
    | c :: t => if c = '-' then (-1, t) else if c = '+' then (1, t) else (1, cs)
    | [] => (1, [])
  let ip := p.2.takeWhile Char.isDigit
  let r1 := p.2.dropWhile Char.isDigit
  match r1 with
  | [] => if ip.isEmpty then none else some (p.1 * (digitsVal ip : ℚ))
  | '.' :: t2 =>
    let fp := t2.takeWhile Char.isDigit
    if ¬ (t2.dropWhile Char.isDigit).isEmpty then none
    else if ip.isEmpty ∧ fp.isEmpty then none
    else some (p.1 * ((digitsVal ip : ℚ) + (digitsVal fp : ℚ) / (10 : ℚ) ^ fp.length))
  | _ => none

/-- Pydantic v1 `float` field coercion: numbers pass, booleans count as
0/1, numeric strings are parsed, everything else fails. -/
def coerceFloat : Json → Option ℚ
  | .num q => some q
  | .bool b => some (if b then 1 else 0)
  | .str s => floatLit? s
  | _ => none

/-- Pydantic v1 `List[str]` field coercion. -/
def coerceStrList : Json → Option (List String)
  | .arr vs => vs.mapM coerceStr
  | _ => none

/-- Construction `NewsAnalysis(...)` inside `analyze_news_article`: each
AI-supplied field is read with `.get` and validated by pydantic; a field
value of the wrong shape makes the whole construction raise.  The caller
supplies the generated `id` and the clock value used for
`published_date`/`analysis_timestamp`. -/
def build_news_analysis (newId : String) (req : AnalysisRequest) (now : ℚ)
    (d : List (String × Json)) : Option NewsAnalysis :=
  match coerceStrList (dictGet d "mentioned_companies" (.arr [])),
        coerceFloat (dictGet d "sentiment_score" (.num 0)),
        coerceStr (dictGet d "sentiment_label" (.str "NEUTRAL")),
        coerceFloat (dictGet d "impact_score" (.num 5)),
        coerceStrList (dictGet d "key_points" (.arr [])) with
  | some mc, some ss, some sl, some imp, some kp =>
    some ⟨newId, req.headline, req.content, req.source, req.url, now,
          mc, ss, sl, imp, kp, now⟩
  | _, _, _, _, _ => none

/-- POST `/analyze` (`analyze_news_article`): any exception out of the
handler body — the configuration error re-raised from `analyze_news`, or a
pydantic validation error while building the `NewsAnalysis` — is turned
into an `HTTPException(500, "Analysis failed: ...")`. -/
def analyze_news_article (api_key newId : String) (req : AnalysisRequest)
    (aiOutcome : Except String String) (now : ℚ) :
    Except HttpError NewsAnalysis :=
  match analyze_news api_key aiOutcome with
  | .error e => .error ⟨500, "Analysis failed: " ++ toString e.status ++ ": " ++ e.detail⟩
  | .ok d =>
    match build_news_analysis newId req now d with
    | some a => .ok a
    | none => .error ⟨500, "Analysis failed: validation error for NewsAnalysis"⟩

/-! ### Read endpoints over the persistence layer

The MongoDB collection is passed in explicitly; a failing lookup is an
`Except.error` input, mirroring the `try/except` blocks of the handlers.
-/

/-- Seconds in one day (`timedelta(days=1)`). -/
def dayS : ℚ := 86400

/-- Window predicate of the trending aggregation:
`analysis_timestamp >= now - timedelta(days=1)`. -/
def inTrendWindow (now : ℚ) (r : NewsAnalysis) : Bool :=
  decide (now - dayS ≤ r.analysis_timestamp)

/-- One group produced by the `/trends` aggregation. -/
structure TrendGroup where
  company : String
  count : Nat
  avg_sentiment : ℚ
  avg_impact : ℚ
deriving DecidableEq

/-- Unwind step of the aggregation: one row per mentioned company. -/
def fanout (rs : List NewsAnalysis) : List (String × NewsAnalysis) :=
  rs.flatMap (fun r => r.mentioned_companies.map (fun c => (c, r)))

/-- Group step of the aggregation: count and averages over the rows whose
company identifier is `k`. -/
def mkGroup (rows : List (String × NewsAnalysis)) (k : String) : TrendGroup :=
  let sel := rows.filter (fun p => p.1 == k)
  ⟨k, sel.length,
   ((sel.map (fun p => p.2.sentiment_score)).sum) / (sel.length : ℚ),
   ((sel.map (fun p => p.2.impact_score)).sum) / (sel.length : ℚ)⟩

/-- Insert one group into a list sorted by mention count, descending. -/
def insertByCount (g : TrendGroup) : List TrendGroup → List TrendGroup
  | [] => [g]
  | h :: t => if h.count < g.count then g :: h :: t else h :: insertByCount g t

/-- Sort groups by mention count, descending (the `$sort` stage). -/
def sortByCountDesc (l : List TrendGroup) : List TrendGroup :=
  l.foldr insertByCount []

/-- The `/trends` aggregation pipeline: window filter, company unwind,
group with count and averages, sort by count descending, limit 10. -/
def trendingGroups (now : ℚ) (db : List NewsAnalysis) : List TrendGroup :=
  let rows := fanout (db.filter (inTrendWindow now))
  (sortByCountDesc (((rows.map Prod.fst).dedup).map (mkGroup rows))).take 10

/-- Response of GET `/trends`. -/
structure TrendsResponse where
  trending_companies : List TrendGroup
  analysis_period : String
  total_analyses : Nat
deriving DecidableEq

/-- GET `/trends` (`get_trending_topics`): a database failure is swallowed
into an empty, zero-valued response; otherwise the pipeline result plus
the unwindowed total document count. -/
def get_trending_topics (now : ℚ)
    (dbData : Except String (List NewsAnalysis)) : TrendsResponse :=
  match dbData with
  | .error _ => ⟨[], "24h", 0⟩
  | .ok recs => ⟨trendingGroups now recs, "24h", recs.length⟩

/-- Case-insensitive rendering of a character list. -/
def toLowerL (l : List Char) : List Char := l.map Char.toLower

/-- Contiguous occurrence of `needle` inside a character list. -/
def containsSeq (needle : List Char) : List Char → Bool
  | [] => needle.isEmpty
  | c :: t => needle.isPrefixOf (c :: t) || containsSeq needle t

/-- Company filter of GET `/company/{symbol}`: the Mongo regex
`{"$regex": symbol, "$options": "i"}` on the array field matches a record
whose `mentioned_companies` has an entry containing `symbol`
case-insensitively.  (Regex metacharacters inside `symbol` are not
modelled; ticker symbols contain none.) -/
def companyMatches (symbol : String) (r : NewsAnalysis) : Bool :=
  r.mentioned_companies.any
    (fun c => containsSeq (toLowerL symbol.data) (toLowerL c.data))

/-- Insert one record into a list sorted by analysis timestamp, descending. -/
def insertByTs (r : NewsAnalysis) : List NewsAnalysis → List NewsAnalysis
  | [] => [r]
  | h :: t =>
    if h.analysis_timestamp < r.analysis_timestamp then r :: h :: t
    else h :: insertByTs r t

/-- Sort records by analysis timestamp, descending. -/
def sortByTsDesc (l : List NewsAnalysis) : List NewsAnalysis :=
  l.foldr insertByTs []

/-- Query of GET `/company/{symbol}`: filter on company match and
`analysis_timestamp >= now - timedelta(days=days)`, sort by analysis
timestamp descending, cap at 50 (`to_list(50)`). -/
def matchedRecords (now : ℚ) (symbol : String) (days : Int)
    (db : List NewsAnalysis) : List NewsAnalysis :=
  (sortByTsDesc (db.filter
    (fun r => companyMatches symbol r &&
      decide (now - dayS * (days : ℚ) ≤ r.analysis_timestamp)))).take 50

/-- Summary block of GET `/company/{symbol}`. -/
structure CompanySummary where
  total_mentions : Nat
  avg_sentiment_score : ℚ
  avg_impact_score : ℚ
  sentiment_label : String
  analysis_period_days : Int
deriving DecidableEq

/-- Response of GET `/company/{symbol}`: either the explicit no-data shape
(whose `summary` is the plain string "No recent analysis found") or the
data shape with a computed summary. -/
inductive CompanyResponse where
  | noData (symbol : String) (analyses : List NewsAnalysis) (summary : String)
  | data (symbol : String) (analyses : List NewsAnalysis) (summary : CompanySummary)
deriving DecidableEq

/-- Round half to even, the tie rule of Python `round`. -/
def roundHalfEven (q : ℚ) : ℤ :=
  if q - ⌊q⌋ < 1 / 2 then ⌊q⌋
  else if (1 : ℚ) / 2 < q - ⌊q⌋ then ⌊q⌋ + 1
  else if ⌊q⌋ % 2 = 0 then ⌊q⌋ else ⌊q⌋ + 1

/-- Python `round(q, digits)` on the exact rational value.  (Python rounds
the nearest binary double instead of the decimal literal; no property
below depends on that difference.) -/
def pyRound (digits : Nat) (q : ℚ) : ℚ :=
  (roundHalfEven (q * (10 : ℚ) ^ digits) : ℚ) / (10 : ℚ) ^ digits

/-- Summary-label thresholds of `get_company_analysis` (0.2 as a rational;
the handler compares floats). -/
def summaryLabel (avg_sentiment : ℚ) : String :=
  if 1 / 5 < avg_sentiment then "BULLISH"
  else if avg_sentiment < -(1 / 5) then "BEARISH"
  else "NEUTRAL"

/-- GET `/company/{symbol}` (`get_company_analysis`): a database failure is
surfaced as a 500 error; zero matches give the no-data shape; otherwise
the matched records together with mean sentiment (rounded to 2 decimals),
mean impact (rounded to 1 decimal) and the recomputed summary label. -/
def get_company_analysis (now : ℚ) (symbol : String) (days : Int)
    (dbData : Except String (List NewsAnalysis)) :
    Except HttpError CompanyResponse :=
  match dbData with
  | .error e => .error ⟨500, "Failed to get company analysis: " ++ e⟩
  | .ok db =>
    let analyses := matchedRecords now symbol days db
    if analyses.isEmpty then .ok (.noData symbol [] "No recent analysis found")
    else
      let avg_sentiment :=
        ((analyses.map (fun a => a.sentiment_score)).sum) / (analyses.length : ℚ)
      let avg_impact :=
        ((analyses.map (fun a => a.impact_score)).sum) / (analyses.length : ℚ)
      .ok (.data symbol analyses
        ⟨analyses.length, pyRound 2 avg_sentiment, pyRound 1 avg_impact,
         summaryLabel avg_sentiment, days⟩)

/-- A document of the `news_analysis` collection as found by the recent
query: each model field present or absent. -/
structure StoredDoc where
  id : Option String
  headline : Option String
  content : Option String
  source : Option String
  url : Option String
  published_date : Option ℚ
  mentioned_companies : Option (List String)
  sentiment_score : Option ℚ
  sentiment_label : Option String
  impact_score : Option ℚ
  key_points : Option (List String)
  analysis_timestamp : Option ℚ
deriving DecidableEq

/-- Pydantic validation `NewsAnalysis(**doc)`: `headline`, `content`,
`source` and `published_date` are required and have no default; the other
fields take their model defaults (`impact_score` defaults to 0.0, `id` to
a fresh uuid, `analysis_timestamp` to the current time — the last two are
supplied by the caller). -/
def validate_news_analysis (freshId : String) (nowDefault : ℚ)
    (d : StoredDoc) : Option NewsAnalysis :=
  match d.headline, d.content, d.source, d.published_date with
  | some h, some c, some s, some pd =>
    some ⟨d.id.getD freshId, h, c, s, d.url, pd,
          d.mentioned_companies.getD [], d.sentiment_score.getD 0,
          d.sentiment_label.getD "NEUTRAL", d.impact_score.getD 0,
          d.key_points.getD [], d.analysis_timestamp.getD nowDefault⟩
  | _, _, _, _ => none

/-- List comprehension `[NewsAnalysis(**analysis) for analysis in analyses]`:
builds every record, raising (here: `none`) as soon as one document fails
validation. -/
def validate_all (freshId : String) (nowDefault : ℚ) :
    List StoredDoc → Option (List NewsAnalysis)
  | [] => some []
  | d :: t =>
    match validate_news_analysis freshId nowDefault d,
          validate_all freshId nowDefault t with
    | some r, some rs => some (r :: rs)
    | _, _ => none

/-- GET `/news/recent` (`get_recent_analysis`): the handler re-validates
every fetched document inside its `try` block, so a database failure or a
single document failing model validation turns the whole response into
the empty list. -/
def get_recent_analysis (freshId : String) (nowDefault : ℚ)
    (dbData : Except String (List StoredDoc)) : List NewsAnalysis :=
  match dbData with
  | .error _ => []
  | .ok docs =>
    match validate_all freshId nowDefault docs with
    | some l => l
    | none => []

/-- Range discipline the provider contract promises for the analysis
fields: whenever the normalized dictionary's coercible field values exist,
`sentiment_score` lies in [-1, 1], `sentiment_label` is one of the three
enumerated labels, and `impact_score` lies in [1, 10].  The code does not
enforce this; it is the hypothesis under which the range invariants hold. -/
def dictRangeOk (d : List (String × Json)) : Bool :=
  (match coerceFloat (dictGet d "sentiment_score" (.num 0)) with
   | some q => decide (-1 ≤ q ∧ q ≤ 1)
   | none => true)
  && (match coerceStr (dictGet d "sentiment_label" (.str "NEUTRAL")) with
   | some s => s == "BULLISH" || s == "BEARISH" || s == "NEUTRAL"
   | none => true)
  && (match coerceFloat (dictGet d "impact_score" (.num 5)) with
   | some q => decide (1 ≤ q ∧ q ≤ 10)
   | none => true)

/-- Range discipline for a whole AI outcome: failed calls take the
fallback (which is in range); response texts are judged after
normalization. -/
def aiRangeOk (o : Except String String) : Bool :=
  match o with
  | .error _ => true
  | .ok t => dictRangeOk (normalizeResponse t.data)

/-- The record built from the fixed fallback analysis. -/
def fallbackRecord (id : String) (req : AnalysisRequest) (now : ℚ) :
    NewsAnalysis :=
  ⟨id, req.headline, req.content, req.source, req.url, now,
   [], 0, "NEUTRAL", 5, ["Analysis temporarily unavailable"], now⟩

/-- Record produced by the analyze endpoint for the conforming response
with score 0.8, label BULLISH and impact 8. -/
def analyzeW : NewsAnalysis :=
  ⟨"id0", "h", "c", "manual", none, 0, [], 4 / 5, "BULLISH", 8, [], 0⟩

/-- Summary block of a successful data-shaped company response, if any. -/
def companySummaryOf : Except HttpError CompanyResponse → Option CompanySummary
  | .ok (.data _ _ s) => some s
  | _ => none

/-- Three in-window records mentioning AAPL with impact scores 5, 5 and 6:
their mean impact 16/3 is not representable with one decimal. -/
def c7db : List NewsAnalysis :=
  [⟨"a", "h", "c", "s", none, 0, ["AAPL"], 0, "NEUTRAL", 5, [], 90000⟩,
   ⟨"b", "h", "c", "s", none, 0, ["AAPL"], 0, "NEUTRAL", 5, [], 91000⟩,
   ⟨"c", "h", "c", "s", none, 0, ["AAPL"], 0, "NEUTRAL", 6, [], 92000⟩]

/-! ### Association-list lemmas for the normalizer -/

theorem dictLookup_nil (k : String) : dictLookup [] k = none := rfl

theorem dictLookup_append (l1 l2 : List (String × Json)) (k : String) :
    dictLookup (l1 ++ l2) k =
      match dictLookup l1 k with
      | some v => some v
      | none => dictLookup l2 k := by
  induction l1 with
  | nil => simp [dictLookup]
  | cons p t ih =>
    cases hpk : (p.1 == k) <;>
      simp [dictLookup, List.find?_cons, hpk] at ih ⊢ <;> exact ih

theorem hasKey_eq_isSome (kvs : List (String × Json)) (k : String) :
    hasKey kvs k = (dictLookup kvs k).isSome := by
  induction kvs with
  | nil => rfl
  | cons p t ih =>
    cases hpk : (p.1 == k) <;>
      simp [hasKey, dictLookup, List.find?_cons, List.any_cons, hpk] at ih ⊢ <;>
      simpa [hasKey, dictLookup] using ih

theorem fill_preserve (fields : List String) :
    ∀ (acc : List (String × Json)) (k : String) (v : Json),
      dictLookup acc k = some v →
      dictLookup
        (fields.foldl
          (fun acc f =>
            if hasKey acc f then acc else acc ++ [(f, get_default_value f)]) acc)
        k = some v := by
  induction fields with
  | nil => intro acc k v h; simpa using h
  | cons g rest ih =>
    intro acc k v h
    simp only [List.foldl_cons]
    apply ih
    by_cases hg : hasKey acc g
    · simpa [hg] using h
    · simp [hg, dictLookup_append, h]

theorem fill_missing (fields : List String) :
    ∀ (acc : List (String × Json)) (f : String), f ∈ fields →
      dictLookup acc f = none →
      dictLookup
        (fields.foldl
          (fun acc f =>
            if hasKey acc f then acc else acc ++ [(f, get_default_value f)]) acc)
        f = some (get_default_value f) := by
  induction fields with
  | nil => intro _ f hf; exact absurd hf (List.not_mem_nil f)
  | cons g rest ih =>
    intro acc f hf hnone
    simp only [List.foldl_cons]
    by_cases hfg : f = g
    · subst hfg
      have hk : hasKey acc f = false := by
        rw [hasKey_eq_isSome, hnone]; rfl
      rw [hk]
      simp only [Bool.false_eq_true, if_false]
      apply fill_preserve
      rw [dictLookup_append, hnone]
      simp [dictLookup, List.find?_cons]
    · have hf' : f ∈ rest := by
        rcases List.mem_cons.1 hf with h | h
        · exact absurd h hfg
        · exact h
      apply ih _ f hf'
      by_cases hg : hasKey acc g
      · rw [if_pos hg]; exact hnone
      · rw [if_neg hg, dictLookup_append, hnone]
        simp [dictLookup, List.find?_cons, Ne.symm hfg]

theorem analyze_news_of_ok (key : String) (h : key ≠ "") (t : String) :
    analyze_news key (.ok t) = .ok (normalizeResponse t.data) := by
  simp [analyze_news, h]

theorem analyze_news_of_error (key : String) (h : key ≠ "") (e : String) :
    analyze_news key (.error e) = .ok get_default_analysis := by
  simp [analyze_news, h]

theorem normalizeResponse_of_obj {t : List Char} {kvs : List (String × Json)}
    (h : parseJsonL (stripFences (pyStrip t)) = some (.obj kvs)) :
    normalizeResponse t = fillDefaults kvs := by
  simp [normalizeResponse, h]

theorem normalizeResponse_of_fail {t : List Char}
    (h : parseJsonL (stripFences (pyStrip t)) = none) :
    normalizeResponse t = get_default_analysis := by
  simp [normalizeResponse, h]

/-! ### Claim theorems -/

/-- C2: with a credential configured, a raw response that does not parse as
JSON (after trimming and fence stripping) and every failed AI call yield
exactly the fixed fallback mapping (score 0.0, label NEUTRAL, impact 5,
no companies, the two "temporarily unavailable" texts), and `analyze_news`
never raises. -/
theorem c2_parse_failure_yields_exact_fallback :
    (∀ key t : String, key ≠ "" →
      parseJsonL (stripFences (pyStrip t.data)) = none →
      analyze_news key (.ok t) = .ok get_default_analysis)
    ∧ (∀ key e : String, key ≠ "" →
        analyze_news key (.error e) = .ok get_default_analysis)
    ∧ (∀ (key : String) (o : Except String String), key ≠ "" →
        (analyze_news key o).isOk = true)
    ∧ dictLookup get_default_analysis "sentiment_score" = some (.num 0)
    ∧ dictLookup get_default_analysis "sentiment_label" = some (.str "NEUTRAL")
    ∧ dictLookup get_default_analysis "impact_score" = some (.num 5)
    ∧ dictLookup get_default_analysis "mentioned_companies" = some (.arr [])
    ∧ dictLookup get_default_analysis "key_points" =
        some (.arr [.str "Analysis temporarily unavailable"])
    ∧ dictLookup get_default_analysis "reasoning" =
        some (.str "AI analysis service temporarily unavailable") := by
  refine ⟨?_, ?_, ?_, rfl, rfl, rfl, rfl, rfl, rfl⟩
  · intro key t hk hp
    rw [analyze_news_of_ok key hk, normalizeResponse_of_fail hp]
  · intro key e hk
    exact analyze_news_of_error key hk e
  · intro key o hk
    cases o with
    | error e => rw [analyze_news_of_error key hk]; rfl
    | ok t => rw [analyze_news_of_ok key hk]; rfl

/-- C2 witness: the fallback equations at a malformed response, a failed
call and a well-formed response, with the credential "k". -/
theorem c2_parse_failure_yields_exact_fallback_witness :
    analyze_news "k" (.ok "it broke") = .ok get_default_analysis
    ∧ analyze_news "k" (.error "ConnectError") = .ok get_default_analysis
    ∧ (analyze_news "k" (.ok "\x7b\"impact_score\": 9\x7d")).isOk = true :=
  ⟨c2_parse_failure_yields_exact_fallback.1 "k" "it broke" (by decide)
    (by with_unfolding_all rfl),
   c2_parse_failure_yields_exact_fallback.2.1 "k" "ConnectError" (by decide),
   c2_parse_failure_yields_exact_fallback.2.2.1 "k"
     (.ok "\x7b\"impact_score\": 9\x7d") (by decide)⟩

/-- C3: with a credential configured, a response parsing to a JSON object
is returned with every missing required key filled by its documented
default and every present key preserved unchanged. -/
theorem c3_missing_keys_filled_present_keys_kept :
    ∀ (key t : String) (kvs : List (String × Json)), key ≠ "" →
      parseJsonL (stripFences (pyStrip t.data)) = some (.obj kvs) →
      analyze_news key (.ok t) = .ok (fillDefaults kvs)
      ∧ (∀ f ∈ required_fields, dictLookup kvs f = none →
          dictLookup (fillDefaults kvs) f = some (get_default_value f))
      ∧ (∀ (k : String) (v : Json), dictLookup kvs k = some v →
          dictLookup (fillDefaults kvs) k = some v)
      ∧ get_default_value "sentiment_score" = .num 0
      ∧ get_default_value "sentiment_label" = .str "NEUTRAL"
      ∧ get_default_value "impact_score" = .num 5
      ∧ get_default_value "mentioned_companies" = .arr []
      ∧ get_default_value "key_points" = .arr [] := by
  intro key t kvs hk hp
  refine ⟨?_, ?_, ?_, rfl, rfl, rfl, rfl, rfl⟩
  · rw [analyze_news_of_ok key hk, normalizeResponse_of_obj hp]
  · intro f hf hnone
    exact fill_missing required_fields kvs f hf hnone
  · intro k v hv
    exact fill_preserve required_fields kvs k v hv

/-- C3 witness: a response supplying only `sentiment_score` keeps that
value and gains the defaulted `impact_score`. -/
theorem c3_missing_keys_filled_present_keys_kept_witness :
    analyze_news "k" (.ok "\x7b\"sentiment_score\": 0.5\x7d") =
      .ok (fillDefaults [("sentiment_score", .num (1 / 2))])
    ∧ dictLookup (fillDefaults [("sentiment_score", .num (1 / 2))])
        "impact_score" = some (get_default_value "impact_score")
    ∧ dictLookup (fillDefaults [("sentiment_score", .num (1 / 2))])
        "sentiment_score" = some (.num (1 / 2)) := by
  have h := c3_missing_keys_filled_present_keys_kept "k"
    "\x7b\"sentiment_score\": 0.5\x7d" [("sentiment_score", .num (1 / 2))]
    (by decide) (by with_unfolding_all rfl)
  exact ⟨h.1, h.2.1 "impact_score" (by decide) (by rfl),
    h.2.2.1 "sentiment_score" (.num (1 / 2)) (by rfl)⟩

/-- C8: a symbol-and-window query matching zero records produces the
non-error no-data response: empty list and the descriptive message. -/
theorem c8_no_match_yields_no_data_response :
    ∀ (now : ℚ) (symbol : String) (days : Int) (db : List NewsAnalysis),
      matchedRecords now symbol days db = [] →
      get_company_analysis now symbol days (.ok db) =
        .ok (.noData symbol [] "No recent analysis found") := by
  intro now symbol days db h
  simp [get_company_analysis, h]

/-- C8 witness: the query for TSLA over a database whose only record
mentions AAPL matches nothing and yields the no-data response. -/
theorem c8_no_match_yields_no_data_response_witness :
    get_company_analysis 100000 "TSLA" 7
      (.ok [⟨"i", "h", "c", "s", none, 0, ["AAPL"], 1, "NEUTRAL", 5, [], 90000⟩]) =
      .ok (.noData "TSLA" [] "No recent analysis found") :=
  c8_no_match_yields_no_data_response 100000 "TSLA" 7
    [⟨"i", "h", "c", "s", none, 0, ["AAPL"], 1, "NEUTRAL", 5, [], 90000⟩]
    (by with_unfolding_all rfl)

/-- C9 counterexample: a request whose `headline` and `content` are the
empty string passes validation (pydantic declares them as plain `str`
with no length constraint), contradicting the claim that empty text is
rejected. -/
theorem c9_counterexample_empty_strings_accepted :
    validate_analysis_request ⟨some "", some "", none, none⟩ =
      .ok ⟨"", "", "manual", none⟩
    ∧ (validate_analysis_request ⟨some "", some "", none, none⟩).isOk = true :=
  ⟨rfl, rfl⟩

/-- C9 amended: the analyze request is accepted exactly when `headline`
and `content` are present (values unconstrained, so empty strings pass);
`source` defaults to "manual" when omitted and `url` is optional. -/
theorem c9_presence_validation :
    ∀ r : RawAnalysisRequest,
      ((validate_analysis_request r).isOk =
        (r.headline.isSome && r.content.isSome))
      ∧ (∀ h c, r.headline = some h → r.content = some c →
          validate_analysis_request r = .ok ⟨h, c, r.source.getD "manual", r.url⟩) := by
  rintro ⟨hh, hc, hs, hu⟩
  constructor
  · cases hh <;> cases hc <;> rfl
  · intro h c hh' hc'
    cases hh <;> cases hc <;> simp_all [validate_analysis_request]

/-- C9 witness: a body with only headline and content present is accepted
with the defaulted source; dropping content is rejected. -/
theorem c9_presence_validation_witness :
    validate_analysis_request ⟨some "Apple Reports", some "Apple Inc...", none, none⟩ =
      .ok ⟨"Apple Reports", "Apple Inc...", "manual", none⟩
    ∧ (validate_analysis_request ⟨some "Apple Reports", none, none, none⟩).isOk = false :=
  ⟨(c9_presence_validation ⟨some "Apple Reports", some "Apple Inc...", none, none⟩).2
      "Apple Reports" "Apple Inc..." rfl rfl,
   by
    have h := (c9_presence_validation ⟨some "Apple Reports", none, none, none⟩).1
    simpa using h⟩

theorem validate_all_eq_none (freshId : String) (nowDefault : ℚ) :
    ∀ docs : List StoredDoc,
      (∃ d ∈ docs, validate_news_analysis freshId nowDefault d = none) →
      validate_all freshId nowDefault docs = none := by
  intro docs
  induction docs with
  | nil => rintro ⟨d, hd, _⟩; exact absurd hd (List.not_mem_nil d)
  | cons a t ih =>
    rintro ⟨d, hd, hv⟩
    rcases List.mem_cons.1 hd with h | h
    · subst h
      simp [validate_all, hv]
    · have ht := ih ⟨d, h, hv⟩
      cases hva : validate_news_analysis freshId nowDefault a <;>
        simp [validate_all, hva, ht]

/-- C10: every failure inside the recent-list handler is swallowed into an
empty list — a failing lookup, and equally a successful lookup in which a
single document fails model validation, which hides all other records;
trending failures become the empty, zero-valued response; company-history
failures surface as a 500 server error. -/
theorem c10_read_path_failure_policy :
    (∀ (e freshId : String) (now : ℚ),
      get_recent_analysis freshId now (.error e) = [])
    ∧ (∀ (freshId : String) (now : ℚ) (docs : List StoredDoc),
        (∃ d ∈ docs, validate_news_analysis freshId now d = none) →
        get_recent_analysis freshId now (.ok docs) = [])
    ∧ (∀ (e : String) (now : ℚ),
        get_trending_topics now (.error e) = ⟨[], "24h", 0⟩)
    ∧ (∀ (e : String) (now : ℚ) (symbol : String) (days : Int),
        get_company_analysis now symbol days (.error e) =
          .error ⟨500, "Failed to get company analysis: " ++ e⟩) := by
  refine ⟨fun _ _ _ => rfl, ?_, fun _ _ => rfl, fun _ _ _ _ => rfl⟩
  intro freshId now docs hex
  simp [get_recent_analysis, validate_all_eq_none freshId now docs hex]

theorem analyze_news_nokey (o : Except String String) :
    analyze_news "" o = .error ⟨500, "Gemini API key not configured"⟩ := by
  simp [analyze_news]

theorem build_default_analysis (id : String) (req : AnalysisRequest) (now : ℚ) :
    build_news_analysis id req now get_default_analysis =
      some (fallbackRecord id req now) := rfl

theorem analyze_article_of_error (key id : String) (req : AnalysisRequest)
    (e : String) (now : ℚ) (h : key ≠ "") :
    analyze_news_article key id req (.error e) now =
      .ok (fallbackRecord id req now) := by
  unfold analyze_news_article
  rw [analyze_news_of_error key h]
  rfl

theorem analyze_article_of_ok (key id : String) (req : AnalysisRequest)
    (t : String) (now : ℚ) (h : key ≠ "") :
    analyze_news_article key id req (.ok t) now =
      (match build_news_analysis id req now (normalizeResponse t.data) with
       | some a => .ok a
       | none => .error ⟨500, "Analysis failed: validation error for NewsAnalysis"⟩) := by
  unfold analyze_news_article
  rw [analyze_news_of_ok key h]

/-- C1 amended: with no credential the analyze endpoint fails with a
server error independent of the AI call (so before any network
interaction); with a credential it succeeds on every failed AI call,
returning the fallback record, and on a response text it succeeds exactly
when the normalized fields pass the response model's type validation —
a response carrying a wrongly-typed field is surfaced as a 500 error. -/
theorem c1_analyze_error_surface :
    (∀ (id : String) (req : AnalysisRequest) (now : ℚ)
       (o1 o2 : Except String String),
      analyze_news_article "" id req o1 now = analyze_news_article "" id req o2 now
      ∧ (analyze_news_article "" id req o1 now).isOk = false)
    ∧ (∀ (key id : String) (req : AnalysisRequest) (e : String) (now : ℚ),
        key ≠ "" →
        analyze_news_article key id req (.error e) now =
          .ok (fallbackRecord id req now))
    ∧ (∀ (key id : String) (req : AnalysisRequest) (t : String) (now : ℚ),
        key ≠ "" →
        (analyze_news_article key id req (.ok t) now).isOk =
          (build_news_analysis id req now (normalizeResponse t.data)).isSome) := by
  refine ⟨?_, ?_, ?_⟩
  · intro id req now o1 o2
    constructor
    · unfold analyze_news_article
      rw [analyze_news_nokey o1, analyze_news_nokey o2]
    · unfold analyze_news_article
      rw [analyze_news_nokey o1]
      rfl
  · intro key id req e now h
    exact analyze_article_of_error key id req e now h
  · intro key id req t now h
    rw [analyze_article_of_ok key id req t now h]
    cases hb : build_news_analysis id req now (normalizeResponse t.data) <;>
      simp [hb, Except.isOk, Except.toBool]

/-- C1 witness: the no-credential error is outcome-independent; with the
credential "k" a network failure still succeeds, and on the empty JSON
object the success of the endpoint equals the success of validation. -/
theorem c1_analyze_error_surface_witness :
    analyze_news_article "" "id0" ⟨"h", "c", "manual", none⟩ (.ok "x") 0 =
      analyze_news_article "" "id0" ⟨"h", "c", "manual", none⟩ (.error "y") 0
    ∧ (analyze_news_article "" "id0" ⟨"h", "c", "manual", none⟩ (.ok "x") 0).isOk = false
    ∧ analyze_news_article "k" "id0" ⟨"h", "c", "manual", none⟩ (.error "boom") 0 =
        .ok (fallbackRecord "id0" ⟨"h", "c", "manual", none⟩ 0)
    ∧ (analyze_news_article "k" "id0" ⟨"h", "c", "manual", none⟩ (.ok "\x7b\x7d") 0).isOk =
        (build_news_analysis "id0" ⟨"h", "c", "manual", none⟩ 0
          (normalizeResponse "\x7b\x7d".data)).isSome :=
  ⟨(c1_analyze_error_surface.1 "id0" ⟨"h", "c", "manual", none⟩ 0 (.ok "x") (.error "y")).1,
   (c1_analyze_error_surface.1 "id0" ⟨"h", "c", "manual", none⟩ 0 (.ok "x") (.error "y")).2,
   c1_analyze_error_surface.2.1 "k" "id0" ⟨"h", "c", "manual", none⟩ "boom" 0 (by decide),
   c1_analyze_error_surface.2.2 "k" "id0" ⟨"h", "c", "manual", none⟩ "\x7b\x7d" 0 (by decide)⟩

/-- C1 counterexample: with a credential configured, the response text
carrying `sentiment_score` as the non-numeric string "positive" parses as
JSON, passes the normalizer, but fails model type validation, so the
endpoint surfaces an error — contradicting "never surfaces an error to
the caller for any AI response text". -/
theorem c1_counterexample_validation_error_surfaced :
    ("key" : String) ≠ ""
    ∧ (analyze_news_article "key" "id0" ⟨"h", "c", "manual", none⟩
        (.ok "\x7b\"sentiment_score\": \"positive\"\x7d") 0).isOk = false :=
  ⟨by decide, by with_unfolding_all rfl⟩

/-- C5 amended: the analysis record returned by the analyze endpoint
satisfies the range invariants (`sentiment_score` in [-1, 1], label among
BULLISH/BEARISH/NEUTRAL, `impact_score` in [1, 10]) whenever the
AI-supplied values themselves satisfy them — in particular always on the
fallback path — because the endpoint copies the values without enforcing
any range. -/
theorem c5_range_invariants_conditional :
    ∀ (key id : String) (req : AnalysisRequest) (o : Except String String)
      (now : ℚ) (a : NewsAnalysis),
      key ≠ "" → aiRangeOk o = true →
      analyze_news_article key id req o now = .ok a →
      (-1 ≤ a.sentiment_score ∧ a.sentiment_score ≤ 1)
      ∧ (a.sentiment_label = "BULLISH" ∨ a.sentiment_label = "BEARISH"
          ∨ a.sentiment_label = "NEUTRAL")
      ∧ (1 ≤ a.impact_score ∧ a.impact_score ≤ 10) := by
  intro key id req o now a hk hrange heq
  cases o with
  | error e =>
    rw [analyze_article_of_error key id req e now hk] at heq
    have ha : a = fallbackRecord id req now := by
      cases heq; rfl
    subst ha
    refine ⟨⟨by norm_num [fallbackRecord], by norm_num [fallbackRecord]⟩,
      Or.inr (Or.inr rfl), by norm_num [fallbackRecord], by norm_num [fallbackRecord]⟩
  | ok t =>
    rw [analyze_article_of_ok key id req t now hk] at heq
    cases hb : build_news_analysis id req now (normalizeResponse t.data) with
    | none => rw [hb] at heq; cases heq
    | some a' =>
      rw [hb] at heq
      have ha : a' = a := by cases heq; rfl
      subst ha
      simp only [aiRangeOk] at hrange
      revert hb
      unfold build_news_analysis
      cases hmc : coerceStrList (dictGet (normalizeResponse t.data) "mentioned_companies" (.arr [])) with
      | none => intro hb; cases hb
      | some mc =>
        cases hss : coerceFloat (dictGet (normalizeResponse t.data) "sentiment_score" (.num 0)) with
        | none => intro hb; cases hb
        | some ss =>
          cases hsl : coerceStr (dictGet (normalizeResponse t.data) "sentiment_label" (.str "NEUTRAL")) with
          | none => intro hb; cases hb
          | some sl =>
            cases himp : coerceFloat (dictGet (normalizeResponse t.data) "impact_score" (.num 5)) with
            | none => intro hb; cases hb
            | some imp =>
              cases hkp : coerceStrList (dictGet (normalizeResponse t.data) "key_points" (.arr [])) with
              | none => intro hb; cases hb
              | some kp =>
                intro hb
                have ha' : a' = ⟨id, req.headline, req.content, req.source,
                    req.url, now, mc, ss, sl, imp, kp, now⟩ := by
                  cases hb; rfl
                subst ha'
                simp only [dictRangeOk, hss, hsl, himp, Bool.and_eq_true,
                  decide_eq_true_eq, Bool.or_eq_true, beq_iff_eq] at hrange
                refine ⟨hrange.1.1, ?_, hrange.2⟩
                rcases hrange.1.2 with (h | h) | h
                exacts [Or.inl h, Or.inr (Or.inl h), Or.inr (Or.inr h)]

/-- C5 witness: a conforming AI response (score 0.8, label BULLISH,
impact 8) yields a record inside all three ranges. -/
theorem c5_range_invariants_conditional_witness :
    (-1 ≤ (analyzeW).sentiment_score ∧ (analyzeW).sentiment_score ≤ 1)
    ∧ ((analyzeW).sentiment_label = "BULLISH" ∨ (analyzeW).sentiment_label = "BEARISH"
        ∨ (analyzeW).sentiment_label = "NEUTRAL")
    ∧ (1 ≤ (analyzeW).impact_score ∧ (analyzeW).impact_score ≤ 10) :=
  c5_range_invariants_conditional "k" "id0" ⟨"h", "c", "manual", none⟩
    (.ok "\x7b\"sentiment_score\": 0.8, \"sentiment_label\": \"BULLISH\", \"impact_score\": 8\x7d")
    0 analyzeW (by decide) (by with_unfolding_all rfl) (by with_unfolding_all rfl)

/-- C5 counterexample: with a credential configured, an AI response with
`sentiment_score` 7.5, label "WILD" and `impact_score` 99 is returned
verbatim in a successful response, violating all three claimed
invariants. -/
theorem c5_counterexample_out_of_range_passthrough :
    ((analyze_news_article "key" "id0" ⟨"h", "c", "manual", none⟩
        (.ok "\x7b\"sentiment_score\": 7.5, \"sentiment_label\": \"WILD\", \"impact_score\": 99\x7d")
        0).toOption.map
      (fun a => (a.sentiment_score, a.sentiment_label, a.impact_score))) =
      some (15 / 2, "WILD", 99)
    ∧ ¬ ((15 : ℚ) / 2 ≤ 1)
    ∧ "WILD" ∉ (["BULLISH", "BEARISH", "NEUTRAL"] : List String)
    ∧ ¬ ((99 : ℚ) ≤ 10) := by
  refine ⟨by with_unfolding_all rfl, by norm_num, by decide, by norm_num⟩

/-- C7 amended: for a non-empty matched set the summary label is
recomputed from the unrounded arithmetic mean of the matched sentiment
scores by the exact 0.2 / -0.2 threshold rule, and the summary reports
the mean sentiment rounded to two decimals and the mean impact rounded to
one decimal (not the exact means). -/
theorem c7_summary_label_rule :
    ∀ (now : ℚ) (symbol : String) (days : Int) (db : List NewsAnalysis),
      matchedRecords now symbol days db ≠ [] →
      get_company_analysis now symbol days (.ok db) =
        .ok (.data symbol (matchedRecords now symbol days db)
          ⟨(matchedRecords now symbol days db).length,
           pyRound 2 (((matchedRecords now symbol days db).map
               (fun a => a.sentiment_score)).sum /
             ((matchedRecords now symbol days db).length : ℚ)),
           pyRound 1 (((matchedRecords now symbol days db).map
               (fun a => a.impact_score)).sum /
             ((matchedRecords now symbol days db).length : ℚ)),
           summaryLabel (((matchedRecords now symbol days db).map
               (fun a => a.sentiment_score)).sum /
             ((matchedRecords now symbol days db).length : ℚ)),
           days⟩)
      ∧ (∀ m : ℚ, summaryLabel m =
          if 1 / 5 < m then "BULLISH"
          else if m < -(1 / 5) then "BEARISH" else "NEUTRAL")
      ∧ summaryLabel (1 / 4) = "BULLISH"
      ∧ summaryLabel (-(3 / 10)) = "BEARISH"
      ∧ summaryLabel (1 / 20) = "NEUTRAL" := by
  intro now symbol days db h
  have hne : (matchedRecords now symbol days db).isEmpty = false := by
    simpa [List.isEmpty_iff] using h
  refine ⟨?_, fun m => rfl, by with_unfolding_all decide,
    by with_unfolding_all decide, by with_unfolding_all decide⟩
  simp [get_company_analysis, hne]

/-- C7 witness: the threshold instances, obtained from the theorem at the
concrete database `c7db`. -/
theorem c7_summary_label_rule_witness :
    summaryLabel (1 / 4) = "BULLISH"
    ∧ summaryLabel (-(3 / 10)) = "BEARISH"
    ∧ summaryLabel (1 / 20) = "NEUTRAL" :=
  ⟨(c7_summary_label_rule 100000 "AAPL" 7 c7db (by with_unfolding_all decide)).2.2.1,
   (c7_summary_label_rule 100000 "AAPL" 7 c7db (by with_unfolding_all decide)).2.2.2.1,
   (c7_summary_label_rule 100000 "AAPL" 7 c7db (by with_unfolding_all decide)).2.2.2.2⟩

/-- C7 counterexample: over three matched records with impact scores 5, 5
and 6 the summary reports 5.3 as `avg_impact_score` while the arithmetic
mean of the matched set is 16/3, so the summary does not report the
arithmetic mean itself. -/
theorem c7_counterexample_rounded_mean :
    (companySummaryOf (get_company_analysis 100000 "AAPL" 7 (.ok c7db))).map
        (fun s => s.avg_impact_score) = some (53 / 10)
    ∧ ((matchedRecords 100000 "AAPL" 7 c7db).map (fun a => a.impact_score)).sum /
        ((matchedRecords 100000 "AAPL" 7 c7db).length : ℚ) = 16 / 3
    ∧ (53 : ℚ) / 10 ≠ 16 / 3 :=
  ⟨by with_unfolding_all rfl, by with_unfolding_all rfl,
   by with_unfolding_all decide⟩

theorem mem_insertByCount {g a : TrendGroup} :
    ∀ l : List TrendGroup, a ∈ insertByCount g l → a = g ∨ a ∈ l := by
  intro l
  induction l with
  | nil => intro h; simpa [insertByCount] using h
  | cons h t ih =>
    by_cases hc : h.count < g.count
    · intro hm
      simp only [insertByCount, if_pos hc, List.mem_cons] at hm
      rcases hm with h1 | h1 | h1
      · exact Or.inl h1
      · exact Or.inr (by simp [h1])
      · exact Or.inr (by simp [h1])
    · intro hm
      simp only [insertByCount, if_neg hc, List.mem_cons] at hm
      rcases hm with h1 | h1
      · exact Or.inr (by simp [h1])
      · rcases ih h1 with h2 | h2
        · exact Or.inl h2
        · exact Or.inr (by simp [h2])

theorem mem_sortByCountDesc {a : TrendGroup} :
    ∀ l : List TrendGroup, a ∈ sortByCountDesc l → a ∈ l := by
  intro l
  induction l with
  | nil => intro h; simpa [sortByCountDesc] using h
  | cons h t ih =>
    intro hm
    have : a ∈ insertByCount h (sortByCountDesc t) := hm
    rcases mem_insertByCount _ this with h1 | h1
    · simp [h1]
    · exact List.mem_cons.2 (Or.inr (ih h1))

theorem pairwise_insertByCount (g : TrendGroup) :
    ∀ l : List TrendGroup,
      l.Pairwise (fun a b => b.count ≤ a.count) →
      (insertByCount g l).Pairwise (fun a b => b.count ≤ a.count) := by
  intro l
  induction l with
  | nil => intro _; simp [insertByCount]
  | cons h t ih =>
    intro hp
    rcases List.pairwise_cons.1 hp with ⟨hrel, hpt⟩
    by_cases hc : h.count < g.count
    · rw [insertByCount, if_pos hc]
      refine List.pairwise_cons.2 ⟨?_, hp⟩
      intro b hb
      rcases List.mem_cons.1 hb with h1 | h1
      · exact h1 ▸ Nat.le_of_lt hc
      · exact Nat.le_trans (hrel b h1) (Nat.le_of_lt hc)
    · rw [insertByCount, if_neg hc]
      refine List.pairwise_cons.2 ⟨?_, ih hpt⟩
      intro b hb
      rcases mem_insertByCount _ hb with h1 | h1
      · exact h1 ▸ Nat.le_of_not_lt hc
      · exact hrel b h1

theorem pairwise_sortByCountDesc :
    ∀ l : List TrendGroup,
      (sortByCountDesc l).Pairwise (fun a b => b.count ≤ a.count) := by
  intro l
  induction l with
  | nil => simp [sortByCountDesc]
  | cons h t ih => exact pairwise_insertByCount h _ ih

/-- C6: the trending endpoint returns at most 10 groups; records older
than the 24-hour window contribute to no group (the groups coincide with
the groups computed over the windowed records alone); every returned
group carries the fan-out mention count and the average sentiment and
impact scores of its company over the windowed records; the groups are
ordered by count descending; and the response's total count ranges over
the whole collection, unwindowed. -/
theorem c6_trending_contract :
    ∀ (now : ℚ) (db : List NewsAnalysis),
      (get_trending_topics now (.ok db)).trending_companies.length ≤ 10
      ∧ trendingGroups now db = trendingGroups now (db.filter (inTrendWindow now))
      ∧ (∀ g ∈ (get_trending_topics now (.ok db)).trending_companies,
          g.count = ((fanout (db.filter (inTrendWindow now))).filter
            (fun p => p.1 == g.company)).length
          ∧ g.avg_sentiment = (((fanout (db.filter (inTrendWindow now))).filter
              (fun p => p.1 == g.company)).map (fun p => p.2.sentiment_score)).sum /
              (g.count : ℚ)
          ∧ g.avg_impact = (((fanout (db.filter (inTrendWindow now))).filter
              (fun p => p.1 == g.company)).map (fun p => p.2.impact_score)).sum /
              (g.count : ℚ))
      ∧ ((get_trending_topics now (.ok db)).trending_companies).Pairwise
          (fun a b => b.count ≤ a.count)
      ∧ (get_trending_topics now (.ok db)).total_analyses = db.length := by
  intro now db
  refine ⟨?_, ?_, ?_, ?_, rfl⟩
  · simpa [get_trending_topics, trendingGroups] using
      List.length_take_le 10 _
  · have hff : (db.filter (inTrendWindow now)).filter (inTrendWindow now) =
        db.filter (inTrendWindow now) :=
      List.filter_eq_self.mpr (fun a ha => List.of_mem_filter ha)
    simp [trendingGroups, hff]
  · intro g hg
    have hg1 : g ∈ sortByCountDesc
        ((((fanout (db.filter (inTrendWindow now))).map Prod.fst).dedup).map
          (mkGroup (fanout (db.filter (inTrendWindow now))))) :=
      List.take_subset _ _ (by simpa [get_trending_topics, trendingGroups] using hg)
    have hg2 := mem_sortByCountDesc _ hg1
    obtain ⟨k, _, rfl⟩ := List.mem_map.1 hg2
    exact ⟨rfl, rfl, rfl⟩
  · exact List.Pairwise.sublist (List.take_sublist _ _)
      (pairwise_sortByCountDesc _)

/-! ### Fence-stripping lemmas for the Normalizer equivalence -/

theorem isPrefixOf_append_self (p r : List Char) :
    p.isPrefixOf (p ++ r) = true := by
  induction p with
  | nil => cases r <;> rfl
  | cons c p' ih => simpa [List.isPrefixOf] using ih

theorem isPrefixOf_append_cancel (p q r : List Char) :
    (p ++ q).isPrefixOf (p ++ r) = q.isPrefixOf r := by
  induction p with
  | nil => rfl
  | cons c p' ih => simpa [List.isPrefixOf] using ih

theorem isPrefixOf_head_mismatch (p : List Char) (c : Char) (l : List Char)
    (hp : p.head? = some btick) (hc : c ≠ btick) :
    p.isPrefixOf (c :: l) = false := by
  cases p with
  | nil => cases hp
  | cons a p' =>
    have ha : a = btick := by simpa using hp
    subst ha
    simp [List.isPrefixOf, Ne.symm hc]

theorem isPrefixOf_nil_of_ne (p : List Char) (hp : p ≠ []) :
    p.isPrefixOf ([] : List Char) = false := by
  cases p with
  | nil => exact absurd rfl hp
  | cons a p' => rfl

theorem isPrefixOf_nobt_fence (p : List Char) (hp : ∀ c ∈ p, c ≠ btick) :
    ∀ t : List Char, p.isPrefixOf (t ++ fence) = p.isPrefixOf t := by
  induction p with
  | nil => intro t; cases t <;> rfl
  | cons a p' ih =>
    intro t
    cases t with
    | nil =>
      have ha : a ≠ btick := hp a (List.mem_cons_self a p')
      show (a :: p').isPrefixOf fence = (a :: p').isPrefixOf []
      rw [show fence = btick :: [btick, btick] from rfl]
      rw [show (a :: p').isPrefixOf [] = false from rfl]
      simp [List.isPrefixOf, ha]
    | cons c t' =>
      have ih' := ih (fun x hx => hp x (List.mem_cons_of_mem a hx)) t'
      simp only [List.cons_append, List.isPrefixOf]
      exact congrArg (fun b => (a == c && b)) ih'

theorem fence_not_prefix_nobt (t : List Char) (ht : ∀ c ∈ t, c ≠ btick) :
    fence.isPrefixOf t = false ∧ fenceTag.isPrefixOf t = false := by
  cases t with
  | nil => exact ⟨rfl, rfl⟩
  | cons c t' =>
    have hc : c ≠ btick := ht c (List.mem_cons_self c t')
    exact ⟨isPrefixOf_head_mismatch _ c t' rfl hc,
      isPrefixOf_head_mismatch _ c t' rfl hc⟩

theorem findSplit_prefix_self (sep rest : List Char) (h : sep ≠ []) :
    findSplit sep (sep ++ rest) = some ([], rest) := by
  cases sep with
  | nil => exact absurd rfl h
  | cons a as =>
    have hpre : (a :: as).isPrefixOf (a :: (as ++ rest)) = true := by
      simpa using isPrefixOf_append_self (a :: as) rest
    rw [show (a :: as) ++ rest = a :: (as ++ rest) from rfl, findSplit, hpre]
    simp [List.drop_left]

theorem findSplit_fenceTag_none (t : List Char) (ht : ∀ c ∈ t, c ≠ btick) :
    findSplit fenceTag (t ++ fence) = none := by
  induction t with
  | nil => decide
  | cons c t' ih =>
    have hc : c ≠ btick := ht c (List.mem_cons_self c t')
    have ih' := ih (fun x hx => ht x (List.mem_cons_of_mem c hx))
    simp [findSplit, isPrefixOf_head_mismatch fenceTag c _ rfl hc, ih']

theorem findSplit_fence_at_end (t : List Char) (ht : ∀ c ∈ t, c ≠ btick) :
    findSplit fence (t ++ fence) = some (t, []) := by
  induction t with
  | nil => decide
  | cons c t' ih =>
    have hc : c ≠ btick := ht c (List.mem_cons_self c t')
    have ih' := ih (fun x hx => ht x (List.mem_cons_of_mem c hx))
    simp [findSplit, isPrefixOf_head_mismatch fence c _ rfl hc, ih']

theorem pySplitGo_succ (sep : List Char) (f : Nat) (l : List Char) :
    pySplitGo sep (f + 1) l =
      match findSplit sep l with
      | none => [l]
      | some (pre, post) => pre :: pySplitGo sep f post := rfl

theorem pySplitGo_tagged (t : List Char) (ht : ∀ c ∈ t, c ≠ btick) :
    ∀ fuel : Nat, 2 ≤ fuel →
      pySplitGo fenceTag fuel (fenceTag ++ t ++ fence) = [[], t ++ fence] := by
  intro fuel hf
  obtain ⟨f, rfl⟩ : ∃ f, fuel = f + 2 := ⟨fuel - 2, by omega⟩
  rw [show f + 2 = (f + 1) + 1 from rfl, pySplitGo_succ,
    show fenceTag ++ t ++ fence = fenceTag ++ (t ++ fence) from by simp,
    findSplit_prefix_self fenceTag (t ++ fence) (by simp [fenceTag, fence])]
  show ([] : List Char) :: pySplitGo fenceTag (f + 1) (t ++ fence) = [[], t ++ fence]
  rw [pySplitGo_succ, findSplit_fenceTag_none t ht]

theorem pySplitGo_fence_end (t : List Char) (ht : ∀ c ∈ t, c ≠ btick) :
    ∀ fuel : Nat, 2 ≤ fuel →
      pySplitGo fence fuel (t ++ fence) = [t, []] := by
  intro fuel hf
  obtain ⟨f, rfl⟩ : ∃ f, fuel = f + 2 := ⟨fuel - 2, by omega⟩
  rw [show f + 2 = (f + 1) + 1 from rfl, pySplitGo_succ,
    findSplit_fence_at_end t ht]
  show t :: pySplitGo fence (f + 1) [] = [t, []]
  rw [pySplitGo_succ, show findSplit fence ([] : List Char) = none from rfl]

theorem pySplitGo_fence_both (t : List Char) (ht : ∀ c ∈ t, c ≠ btick) :
    ∀ fuel : Nat, 3 ≤ fuel →
      pySplitGo fence fuel (fence ++ t ++ fence) = [[], t, []] := by
  intro fuel hf
  obtain ⟨f, rfl⟩ : ∃ f, fuel = f + 3 := ⟨fuel - 3, by omega⟩
  rw [show f + 3 = (f + 2) + 1 from rfl, pySplitGo_succ,
    show fence ++ t ++ fence = fence ++ (t ++ fence) from by simp,
    findSplit_prefix_self fence (t ++ fence) (by simp [fence])]
  show ([] : List Char) :: pySplitGo fence (f + 2) (t ++ fence) = [[], t, []]
  rw [pySplitGo_fence_end t ht (f + 2) (by omega)]

theorem stripFences_tagged (t : List Char) (ht : ∀ c ∈ t, c ≠ btick) :
    stripFences (fenceTag ++ t ++ fence) = t := by
  have hpre : fenceTag.isPrefixOf (fenceTag ++ t ++ fence) = true := by
    rw [show fenceTag ++ t ++ fence = fenceTag ++ (t ++ fence) from by simp]
    exact isPrefixOf_append_self _ _
  rw [stripFences, if_pos hpre]
  rw [show pySplit fenceTag (fenceTag ++ t ++ fence) =
      pySplitGo fenceTag ((fenceTag ++ t ++ fence).length + 1)
        (fenceTag ++ t ++ fence) from rfl]
  rw [pySplitGo_tagged t ht _ (by simp [fenceTag, fence])]
  rw [show ([[], t ++ fence] : List (List Char)).getD 1 [] = t ++ fence from rfl]
  rw [show pySplit fence (t ++ fence) =
      pySplitGo fence ((t ++ fence).length + 1) (t ++ fence) from rfl]
  rw [pySplitGo_fence_end t ht _ (by simp [fence])]
  rfl

theorem stripFences_untagged (t : List Char) (ht : ∀ c ∈ t, c ≠ btick)
    (hj : List.isPrefixOf ('j' :: 's' :: 'o' :: 'n' :: []) t = false) :
    stripFences (fence ++ t ++ fence) = t := by
  have hnj : ∀ c ∈ ('j' :: 's' :: 'o' :: 'n' :: []), c ≠ btick := by decide
  have htag : fenceTag.isPrefixOf (fence ++ t ++ fence) = false := by
    rw [show fence ++ t ++ fence = fence ++ (t ++ fence) from by simp,
      show fenceTag = fence ++ ('j' :: 's' :: 'o' :: 'n' :: []) from rfl,
      isPrefixOf_append_cancel, isPrefixOf_nobt_fence _ hnj t, hj]
  have hpre : fence.isPrefixOf (fence ++ t ++ fence) = true := by
    rw [show fence ++ t ++ fence = fence ++ (t ++ fence) from by simp]
    exact isPrefixOf_append_self _ _
  rw [stripFences, if_neg (by rw [htag]; exact Bool.false_ne_true), if_pos hpre]
  rw [show pySplit fence (fence ++ t ++ fence) =
      pySplitGo fence ((fence ++ t ++ fence).length + 1)
        (fence ++ t ++ fence) from rfl]
  rw [pySplitGo_fence_both t ht _ (by simp [fence])]
  rfl

theorem stripFences_bare (t : List Char) (ht : ∀ c ∈ t, c ≠ btick) :
    stripFences t = t := by
  obtain ⟨h1, h2⟩ := fence_not_prefix_nobt t ht
  rw [stripFences, if_neg (by rw [h2]; exact Bool.false_ne_true),
    if_neg (by rw [h1]; exact Bool.false_ne_true)]

theorem dropWhile_ws_append (w l : List Char) (hw : ∀ c ∈ w, isWs c = true) :
    (w ++ l).dropWhile isWs = l.dropWhile isWs := by
  induction w with
  | nil => rfl
  | cons c w' ih =>
    have hc := hw c (List.mem_cons_self c w')
    simp [List.dropWhile_cons, hc,
      ih (fun x hx => hw x (List.mem_cons_of_mem c hx))]

theorem pyStrip_sandwich (w1 w2 m : List Char)
    (h1 : ∀ c ∈ w1, isWs c = true) (h2 : ∀ c ∈ w2, isWs c = true) :
    pyStrip (w1 ++ (btick :: (m ++ [btick])) ++ w2) =
      btick :: (m ++ [btick]) := by
  have hbt : isWs btick = false := by decide
  rw [pyStrip,
    show w1 ++ (btick :: (m ++ [btick])) ++ w2 =
      w1 ++ (btick :: (m ++ ([btick] ++ w2))) from by simp,
    dropWhile_ws_append _ _ h1]
  rw [List.dropWhile_cons, hbt]
  simp only [Bool.false_eq_true, if_false]
  rw [show (btick :: (m ++ ([btick] ++ w2))).reverse =
      w2.reverse ++ (btick :: (m.reverse ++ [btick])) from by simp]
  rw [dropWhile_ws_append _ _ (fun c hc => h2 c (List.mem_reverse.1 hc))]
  rw [List.dropWhile_cons, hbt]
  simp only [Bool.false_eq_true, if_false]
  simp

/-- C4 amended: for every backtick-free text with no surrounding
whitespace that does not begin with the four letters json, the Normalizer
produces the same result whether the text is presented bare, wrapped in a
json-tagged fenced block, or wrapped in an untagged fenced block, with
arbitrary whitespace around the fenced block; a text containing the fence
marker itself breaks the equivalence (see the counterexample). -/
theorem c4_fenced_equivalence :
    ∀ t w1 w2 : List Char,
      (∀ c ∈ t, c ≠ btick) →
      pyStrip t = t →
      List.isPrefixOf ('j' :: 's' :: 'o' :: 'n' :: []) t = false →
      (∀ c ∈ w1, isWs c = true) →
      (∀ c ∈ w2, isWs c = true) →
      normalizeResponse (w1 ++ fenceTag ++ t ++ fence ++ w2) =
        normalizeResponse t
      ∧ normalizeResponse (w1 ++ fence ++ t ++ fence ++ w2) =
        normalizeResponse t := by
  intro t w1 w2 ht hstrip hj h1 h2
  have hbare : stripFences (pyStrip t) = t := by
    rw [hstrip, stripFences_bare t ht]
  constructor
  · have hshape : w1 ++ fenceTag ++ t ++ fence ++ w2 =
        w1 ++ (btick :: ((btick :: btick :: 'j' :: 's' :: 'o' :: 'n' :: t ++
          [btick, btick]) ++ [btick])) ++ w2 := by
      simp [fenceTag, fence]
    have hps : pyStrip (w1 ++ fenceTag ++ t ++ fence ++ w2) =
        fenceTag ++ t ++ fence := by
      rw [hshape, pyStrip_sandwich w1 w2 _ h1 h2]
      simp [fenceTag, fence]
    rw [normalizeResponse, normalizeResponse, hps, hbare,
      stripFences_tagged t ht]
  · have hshape : w1 ++ fence ++ t ++ fence ++ w2 =
        w1 ++ (btick :: ((btick :: btick :: t ++ [btick, btick]) ++ [btick])) ++ w2 := by
      simp [fence]
    have hps : pyStrip (w1 ++ fence ++ t ++ fence ++ w2) =
        fence ++ t ++ fence := by
      rw [hshape, pyStrip_sandwich w1 w2 _ h1 h2]
      simp [fence]
    rw [normalizeResponse, normalizeResponse, hps, hbare,
      stripFences_untagged t ht hj]

/-- C4 witness: the object text carrying key "a" wrapped in either fence
form, padded by newline and blank, normalizes to the bare result. -/
theorem c4_fenced_equivalence_witness :
    normalizeResponse ("\n".data ++ fenceTag ++ "\x7b\"a\": 1\x7d".data ++
        fence ++ " ".data) =
      normalizeResponse "\x7b\"a\": 1\x7d".data
    ∧ normalizeResponse ("\n".data ++ fence ++ "\x7b\"a\": 1\x7d".data ++
        fence ++ " ".data) =
      normalizeResponse "\x7b\"a\": 1\x7d".data :=
  c4_fenced_equivalence "\x7b\"a\": 1\x7d".data "\n".data " ".data
    (by decide) (by decide) (by decide) (by decide) (by decide)

/-- C4 counterexample: the valid JSON object whose string value is the
fence marker itself parses bare (no `reasoning` key is produced) but its
json-tagged fenced presentation is cut at the inner marker, fails to
parse, and falls back (producing the `reasoning` key) — so the Normalizer
does not produce the same result for every JSON text. -/
theorem c4_counterexample_backtick_content :
    (dictLookup (normalizeResponse "\x7b\"a\": \"```\"\x7d".data) "reasoning").isSome = false
    ∧ (dictLookup (normalizeResponse "```json\n\x7b\"a\": \"```\"\x7d\n```".data)
        "reasoning").isSome = true
    ∧ normalizeResponse "\x7b\"a\": \"```\"\x7d".data ≠
        normalizeResponse "```json\n\x7b\"a\": \"```\"\x7d\n```".data := by
  have hA : (dictLookup (normalizeResponse "\x7b\"a\": \"```\"\x7d".data)
      "reasoning").isSome = false := by with_unfolding_all rfl
  have hB : (dictLookup (normalizeResponse "```json\n\x7b\"a\": \"```\"\x7d\n```".data)
      "reasoning").isSome = true := by with_unfolding_all rfl
  refine ⟨hA, hB, fun h => ?_⟩
  have h2 := congrArg (fun d => (dictLookup d "reasoning").isSome) h
  dsimp only at h2
  rw [hA, hB] at h2
  exact Bool.false_ne_true h2

/-- C10 witness: one stored document lacking a headline empties the whole
recent list even though a fully valid document is present; the failure
shapes of the other read handlers at concrete inputs. -/
theorem c10_read_path_failure_policy_witness :
    get_recent_analysis "f" 0
      (.ok [⟨some "i", some "h", some "c", some "s", none, some 0,
              none, none, none, none, none, none⟩,
            ⟨none, none, some "c", some "s", none, some 0,
              none, none, none, none, none, none⟩]) = []
    ∧ get_recent_analysis "f" 0 (.error "no database") = []
    ∧ get_trending_topics 0 (.error "no database") = ⟨[], "24h", 0⟩
    ∧ get_company_analysis 0 "AAPL" 7 (.error "no database") =
        .error ⟨500, "Failed to get company analysis: no database"⟩ :=
  ⟨c10_read_path_failure_policy.2.1 "f" 0 _
    ⟨⟨none, none, some "c", some "s", none, some 0,
        none, none, none, none, none, none⟩,
      by simp, rfl⟩,
   c10_read_path_failure_policy.1 "no database" "f" 0,
   c10_read_path_failure_policy.2.2.1 "no database" 0,
   c10_read_path_failure_policy.2.2.2 "no database" 0 "AAPL" 7⟩

end AlphaGraph
